import Mathlib

/- Shallow embedding of src/src/main/core/worker.c of the Shadow simulator:
   the worker-pool minimum-event-time reduction, the event-dispatch API
   (worker_scheduleTask, worker_sendPacket) and the task-dispatch entry
   points. SimulationTime is guint64 nanoseconds, modelled as Nat with
   arithmetic reduced mod 2 ^ 64 where the C code can wrap. Values of C
   type gdouble (reliability, random draw, latency) are modelled as
   rationals. -/

def UINT64_MOD : Nat := 2 ^ 64

/-- Modelled from the spec: the sentinel constants of definitions.h are not
under src. SIMTIME_INVALID marks that the thread is not currently inside an
event. -/
def SIMTIME_INVALID : Nat := 2 ^ 64 - 1

/-- Modelled from the spec: SIMTIME_MAX is the sentinel for unknown or no
event, distinct from SIMTIME_INVALID. -/
def SIMTIME_MAX : Nat := 2 ^ 64 - 2

/-- Modelled from the spec: SIMTIME_ONE_MILLISECOND is the number of
simulator nanoseconds per millisecond. -/
def SIMTIME_ONE_MILLISECOND : Nat := 1000000

/-- The fields of struct WorkerPool that the min-event-time reduction uses:
nWorkers and nParallel from workerpool_new, and the minEventTimes array of
length min nParallel nWorkers (one slot per logical processor). -/
structure WorkerPool where
  nWorkers : Nat
  nParallel : Nat
  minEventTimes : List Nat
  deriving DecidableEq

/-- The minEventTimes initialization done by workerpool_new: every slot of
the length min nParallel nWorkers array starts at SIMTIME_MAX. -/
def workerpool_new (nWorkers nParallel : Nat) : WorkerPool :=
  { nWorkers := nWorkers
    nParallel := nParallel
    minEventTimes := List.replicate (min nParallel nWorkers) SIMTIME_MAX }

/-- The loop body of workerpool_getGlobalNextEventTime: scan the slots left
to right keeping the running minimum (seeded with SIMTIME_MAX), resetting
each visited slot to SIMTIME_MAX. Returns the final minimum and the reset
array. -/
def minTimeScan : List Nat → Nat → Nat × List Nat
  | [], minTime => (minTime, [])
  | t :: ts, minTime =>
      let minTimeNext := if t < minTime then t else minTime
      let r := minTimeScan ts minTimeNext
      (r.1, SIMTIME_MAX :: r.2)

/-- workerpool_getGlobalNextEventTime: linear scan of minEventTimes that
returns the minimum and resets every slot to SIMTIME_MAX. -/
def workerpool_getGlobalNextEventTime (pool : WorkerPool) : Nat × WorkerPool :=
  let r := minTimeScan pool.minEventTimes SIMTIME_MAX
  (r.1, { pool with minEventTimes := r.2 })

/-- worker_setMinEventTimeNextRound: if simtime is below the round end time
the call is ignored; otherwise the slot of the logical processor (lpi) the
calling worker is assigned to is lowered to simtime when simtime is smaller.
roundEndTime and lpi are the thread-local values the C code reads from
_worker_getRoundEndTime and workerLogicalProcessorIdxs. -/
def worker_setMinEventTimeNextRound (roundEndTime lpi simtime : Nat)
    (pool : WorkerPool) : WorkerPool :=
  if simtime < roundEndTime then pool
  else if simtime < pool.minEventTimes.getD lpi 0 then
    { pool with minEventTimes := pool.minEventTimes.set lpi simtime }
  else pool

/-- The dispatch-relevant state of a WorkerPool: the worker count and the
task-function and task-data slots (taskFn is none when no task is in
flight, mirroring the NULL function pointer; the opaque function and data
pointers are modelled as Nat ids). -/
structure PoolDispatchState where
  nWorkers : Nat
  taskFn : Option Nat
  taskData : Nat
  deriving DecidableEq

/-- Outcome of a startTaskFn call: either the call returns with the updated
state (ranSync records the nWorkers = 0 synchronous path), or the process
aborts on a failed utility_assert, leaving the state as it was at the
abort. -/
inductive StartTaskOutcome where
  | ok (s : PoolDispatchState) (ranSync : Bool)
  | panicTaskInFlight (s : PoolDispatchState)
  | panicNullTaskFn (s : PoolDispatchState)
  deriving DecidableEq

/-- The internal runner _workerpool_startTaskFn: with nWorkers = 0 the task
runs synchronously and the slots are untouched; otherwise it asserts that no
task is in flight (taskFn slot empty) and then stores the new task function
and data. The semaphore posts to wake workers are not modelled. -/
def _workerpool_startTaskFn (s : PoolDispatchState) (taskFn : Option Nat)
    (taskData : Nat) : StartTaskOutcome :=
  if s.nWorkers = 0 then .ok s true
  else if s.taskFn ≠ none then .panicTaskInFlight s
  else .ok { s with taskFn := taskFn, taskData := taskData } false

/-- The public entry workerpool_startTaskFn: asserts the new task function
is non-null, then calls the internal runner. -/
def workerpool_startTaskFn (s : PoolDispatchState) (taskFn : Option Nat)
    (taskData : Nat) : StartTaskOutcome :=
  if taskFn = none then .panicNullTaskFn s
  else _workerpool_startTaskFn s taskFn taskData

/-- The environment a worker_scheduleTask call reads: whether the manager
reports the scheduler still running, the thread-local current simulation
time, the target host (an opaque id), and the accept/reject answer
scheduler_push would give for the constructed event. -/
structure ScheduleTaskEnv where
  schedulerIsRunning : Bool
  currentTime : Nat
  host : Nat
  schedulerAccepts : Bool
  deriving DecidableEq

/-- Outcome of worker_scheduleTask: either the function returns a boolean,
together with the event (time, source host, destination host) it pushed to
the scheduler if any, or the utility_assert on the current time fails and
the process aborts. -/
inductive ScheduleTaskOutcome where
  | returned (b : Bool) (pushed : Option (Nat × Nat × Nat))
  | panicInvalidTime
  deriving DecidableEq

/-- worker_scheduleTask: returns false when the scheduler is no longer
running; asserts the current time is not SIMTIME_INVALID; otherwise builds
an event at currentTime + nanoDelay (guint64 addition) with the host as both
source and destination, pushes it, and returns the scheduler answer. -/
def worker_scheduleTask (env : ScheduleTaskEnv) (nanoDelay : Nat) :
    ScheduleTaskOutcome :=
  if env.schedulerIsRunning = false then .returned false none
  else if env.currentTime = SIMTIME_INVALID then .panicInvalidTime
  else .returned env.schedulerAccepts
    (some ((env.currentTime + nanoDelay) % UINT64_MOD, env.host, env.host))

/-- The delivery status a packet can gain in worker_sendPacket
(packet_addDeliveryStatus with PDS_INET_SENT or PDS_INET_DROPPED). -/
inductive DeliveryStatus where
  | SENT
  | DROPPED
  deriving DecidableEq

/-- The environment a worker_sendPacket call reads: the scheduler-running
flag, the resolved source and destination addresses (none models a NULL
resolution result; address ids are opaque), the bootstrapping flag, the
topology reliability, the reliability draw from the source host random
source, the packet payload length, the topology latency in milliseconds,
the thread-local current time, whether scheduler_getHost finds the
destination host, and the accept/reject answer scheduler_push would give. -/
structure SendPacketEnv where
  schedulerIsRunning : Bool
  srcAddress : Option Nat
  dstAddress : Option Nat
  bootstrapping : Bool
  reliability : ℚ
  chance : ℚ
  payloadLength : Nat
  latency : ℚ
  currentTime : Nat
  dstHostExists : Bool
  schedulerAccepts : Bool
  deriving DecidableEq

/-- The observable effects of a worker_sendPacket call that returns:
whether address resolution was reached, the delivery status added to the
original packet, the deliver time of the event pushed to the scheduler if
any, whether the path packet counter was incremented, and whether the
packet was copied for the delivery task. -/
structure SendEffects where
  resolvedAddresses : Bool
  deliveryStatus : Option DeliveryStatus
  eventPushed : Option Nat
  pathCounterIncremented : Bool
  packetCopied : Bool
  deriving DecidableEq

/-- Outcome of worker_sendPacket: a normal return with its effects, or a
process abort (utility_panic on a NULL address, or the utility_assert on a
missing destination host). -/
inductive SendOutcome where
  | ok (eff : SendEffects)
  | panicNullAddress
  | panicNoDstHost
  deriving DecidableEq

/-- The delay computation of worker_sendPacket: the C code computes
(SimulationTime)ceil(latency * SIMTIME_ONE_MILLISECOND) on gdouble,
modelled as the integer ceiling on rationals cast to Nat. -/
def sendDelay (latency : ℚ) : Nat :=
  (⌈latency * (SIMTIME_ONE_MILLISECOND : ℚ)⌉).toNat

/-- worker_sendPacket: a silent no-op when the scheduler is no longer
running; panics when an address resolves to NULL; delivers (path counter
increment, SENT status, packet copy, event pushed at
currentTime + sendDelay latency) when bootstrapping, or the draw is at most
the reliability, or the payload length is zero; otherwise marks the packet
DROPPED. The boolean answer of scheduler_push is discarded. -/
def worker_sendPacket (env : SendPacketEnv) : SendOutcome :=
  if env.schedulerIsRunning = false then
    .ok { resolvedAddresses := false, deliveryStatus := none,
          eventPushed := none, pathCounterIncremented := false,
          packetCopied := false }
  else if env.srcAddress = none ∨ env.dstAddress = none then .panicNullAddress
  else if env.bootstrapping = true ∨ env.chance ≤ env.reliability ∨
      env.payloadLength = 0 then
    if env.dstHostExists = false then .panicNoDstHost
    else
      .ok { resolvedAddresses := true, deliveryStatus := some .SENT,
            eventPushed :=
              some ((env.currentTime + sendDelay env.latency) % UINT64_MOD),
            pathCounterIncremented := true, packetCopied := true }
  else
    .ok { resolvedAddresses := true, deliveryStatus := some .DROPPED,
          eventPushed := none, pathCounterIncremented := false,
          packetCopied := false }

/-- An environment for worker_sendPacket in which the scheduler is running,
both addresses resolve, the network is not bootstrapping, the topology
reliability is 0, the payload length is 100 (positive) and the reliability
draw is exactly 0. -/
def env4 : SendPacketEnv where
  schedulerIsRunning := true
  srcAddress := some 1
  dstAddress := some 2
  bootstrapping := false
  reliability := 0
  chance := 0
  payloadLength := 100
  latency := 1
  currentTime := 1000
  dstHostExists := true
  schedulerAccepts := true

theorem minTimeScan_cons_fst (t : Nat) (ts : List Nat) (a : Nat) :
    (minTimeScan (t :: ts) a).1 =
      (minTimeScan ts (if t < a then t else a)).1 := rfl

theorem minTimeScan_snd (l : List Nat) (a : Nat) :
    (minTimeScan l a).2 = List.replicate l.length SIMTIME_MAX := by
  induction l generalizing a with
  | nil => rfl
  | cons t ts ih =>
    simp [minTimeScan, ih, List.replicate_succ]

theorem minTimeScan_fst_le_init (l : List Nat) (a : Nat) :
    (minTimeScan l a).1 ≤ a := by
  induction l generalizing a with
  | nil => exact Nat.le_refl a
  | cons t ts ih =>
    rw [minTimeScan_cons_fst]
    refine Nat.le_trans (ih (if t < a then t else a)) ?_
    split <;> omega

theorem minTimeScan_fst_le (l : List Nat) (a : Nat) :
    ∀ t ∈ l, (minTimeScan l a).1 ≤ t := by
  induction l generalizing a with
  | nil => intro t ht; cases ht
  | cons t ts ih =>
    intro u hu
    rw [minTimeScan_cons_fst]
    rcases List.mem_cons.mp hu with h | h
    · subst h
      refine Nat.le_trans (minTimeScan_fst_le_init ts (if u < a then u else a)) ?_
      split <;> omega
    · exact ih (if t < a then t else a) u h

theorem minTimeScan_fst_mem (l : List Nat) (a : Nat) :
    (minTimeScan l a).1 ∈ l ∨ (minTimeScan l a).1 = a := by
  induction l generalizing a with
  | nil => right; rfl
  | cons t ts ih =>
    rw [minTimeScan_cons_fst]
    rcases ih (if t < a then t else a) with h | h
    · left; exact List.mem_cons_of_mem t h
    · by_cases hlt : t < a
      · left
        rw [if_pos hlt] at h ⊢
        rw [h]
        exact List.mem_cons_self t ts
      · right
        rw [if_neg hlt] at h ⊢
        exact h

theorem minTimeScan_replicate_max (n : Nat) :
    (minTimeScan (List.replicate n SIMTIME_MAX) SIMTIME_MAX).1 = SIMTIME_MAX := by
  induction n with
  | zero => rfl
  | succ n ih =>
    rw [List.replicate_succ, minTimeScan_cons_fst,
      if_neg (Nat.lt_irrefl SIMTIME_MAX)]
    exact ih

theorem getGlobalNextEventTime_fst (pool : WorkerPool) :
    (workerpool_getGlobalNextEventTime pool).1 =
      (minTimeScan pool.minEventTimes SIMTIME_MAX).1 := rfl

theorem getGlobalNextEventTime_snd (pool : WorkerPool) :
    (workerpool_getGlobalNextEventTime pool).2.minEventTimes =
      (minTimeScan pool.minEventTimes SIMTIME_MAX).2 := rfl

/-- Claim C1: for every pool whose minEventTimes array has length
min(nWorkers, nParallel) and whose slots are all at most SIMTIME_MAX,
workerpool_getGlobalNextEventTime returns the minimum of the slots (it is a
slot value and a lower bound of all slots), afterwards every slot equals
SIMTIME_MAX, and a second call with no intervening writes returns
SIMTIME_MAX. -/
theorem workerpool_getGlobalNextEventTime_spec (pool : WorkerPool)
    (hW : 1 ≤ pool.nWorkers) (hP : 1 ≤ pool.nParallel)
    (hL : pool.minEventTimes.length = min pool.nWorkers pool.nParallel)
    (hBound : ∀ t ∈ pool.minEventTimes, t ≤ SIMTIME_MAX) :
    (workerpool_getGlobalNextEventTime pool).1 ∈ pool.minEventTimes ∧
    (∀ t ∈ pool.minEventTimes, (workerpool_getGlobalNextEventTime pool).1 ≤ t) ∧
    (∀ t ∈ (workerpool_getGlobalNextEventTime pool).2.minEventTimes,
      t = SIMTIME_MAX) ∧
    (workerpool_getGlobalNextEventTime
      (workerpool_getGlobalNextEventTime pool).2).1 = SIMTIME_MAX := by
  have hlen : 0 < pool.minEventTimes.length := by
    rw [hL]; exact lt_min hW hP
  have hne : pool.minEventTimes ≠ [] := List.ne_nil_of_length_pos hlen
  have hlow : ∀ t ∈ pool.minEventTimes,
      (workerpool_getGlobalNextEventTime pool).1 ≤ t := by
    rw [getGlobalNextEventTime_fst]
    exact minTimeScan_fst_le pool.minEventTimes SIMTIME_MAX
  have hmem : (workerpool_getGlobalNextEventTime pool).1 ∈ pool.minEventTimes := by
    rw [getGlobalNextEventTime_fst]
    rcases minTimeScan_fst_mem pool.minEventTimes SIMTIME_MAX with h | h
    · exact h
    · obtain ⟨t0, ht0⟩ := List.exists_mem_of_ne_nil pool.minEventTimes hne
      have h1 : (minTimeScan pool.minEventTimes SIMTIME_MAX).1 ≤ t0 :=
        minTimeScan_fst_le pool.minEventTimes SIMTIME_MAX t0 ht0
      have h2 : t0 ≤ SIMTIME_MAX := hBound t0 ht0
      have : (minTimeScan pool.minEventTimes SIMTIME_MAX).1 = t0 := by omega
      rw [this]
      exact ht0
  have hreset : ∀ t ∈ (workerpool_getGlobalNextEventTime pool).2.minEventTimes,
      t = SIMTIME_MAX := by
    rw [getGlobalNextEventTime_snd, minTimeScan_snd]
    intro t ht
    exact List.eq_of_mem_replicate ht
  refine ⟨hmem, hlow, hreset, ?_⟩
  rw [getGlobalNextEventTime_fst, getGlobalNextEventTime_snd, minTimeScan_snd]
  exact minTimeScan_replicate_max pool.minEventTimes.length

theorem workerpool_getGlobalNextEventTime_spec_witness :
    (workerpool_getGlobalNextEventTime ⟨3, 3, [10000, 5000, 7000]⟩).1 ∈
      ([10000, 5000, 7000] : List Nat) ∧
    (∀ t ∈ ([10000, 5000, 7000] : List Nat),
      (workerpool_getGlobalNextEventTime ⟨3, 3, [10000, 5000, 7000]⟩).1 ≤ t) ∧
    (∀ t ∈ (workerpool_getGlobalNextEventTime
        ⟨3, 3, [10000, 5000, 7000]⟩).2.minEventTimes, t = SIMTIME_MAX) ∧
    (workerpool_getGlobalNextEventTime
      (workerpool_getGlobalNextEventTime ⟨3, 3, [10000, 5000, 7000]⟩).2).1 =
      SIMTIME_MAX :=
  workerpool_getGlobalNextEventTime_spec ⟨3, 3, [10000, 5000, 7000]⟩
    (by decide) (by decide) (by decide) (by decide)

/-- Claim C2: when simtime is below the round end time,
worker_setMinEventTimeNextRound leaves the pool unchanged, so the next
workerpool_getGlobalNextEventTime result is unaffected; otherwise it sets
the slot of the calling worker logical processor to the minimum of its old
value and simtime and leaves every other slot unchanged. -/
theorem worker_setMinEventTimeNextRound_spec (roundEndTime lpi simtime : Nat)
    (pool : WorkerPool) :
    (simtime < roundEndTime →
      worker_setMinEventTimeNextRound roundEndTime lpi simtime pool = pool ∧
      workerpool_getGlobalNextEventTime
          (worker_setMinEventTimeNextRound roundEndTime lpi simtime pool) =
        workerpool_getGlobalNextEventTime pool) ∧
    (¬ simtime < roundEndTime → ∀ v, pool.minEventTimes[lpi]? = some v →
      (worker_setMinEventTimeNextRound roundEndTime lpi simtime
          pool).minEventTimes[lpi]? = some (min v simtime) ∧
      ∀ j, j ≠ lpi →
        (worker_setMinEventTimeNextRound roundEndTime lpi simtime
            pool).minEventTimes[j]? = pool.minEventTimes[j]?) := by
  constructor
  · intro h
    unfold worker_setMinEventTimeNextRound
    rw [if_pos h]
    exact ⟨rfl, rfl⟩
  · intro h v hv
    have hlt : lpi < pool.minEventTimes.length :=
      List.getElem?_eq_some_iff.mp hv |>.1
    have hgetD : pool.minEventTimes.getD lpi 0 = v := by
      rw [List.getD_eq_getElem?_getD, hv]; rfl
    unfold worker_setMinEventTimeNextRound
    rw [if_neg h, hgetD]
    by_cases hsm : simtime < v
    · rw [if_pos hsm]
      constructor
      · have : min v simtime = simtime := Nat.min_eq_right (Nat.le_of_lt hsm)
        rw [this]
        simp [List.getElem?_set_self, hlt]
      · intro j hj
        simp [List.getElem?_set_ne (fun heq => hj heq.symm)]
    · rw [if_neg hsm]
      constructor
      · have : min v simtime = v := Nat.min_eq_left (Nat.le_of_not_lt hsm)
        rw [this, hv]
      · intro j hj
        rfl

theorem worker_setMinEventTimeNextRound_spec_witness :
    (worker_setMinEventTimeNextRound 5 1 8
        ⟨3, 3, [7, 9, 11]⟩).minEventTimes[1]? = some (min 9 8) ∧
    (worker_setMinEventTimeNextRound 5 1 8
        ⟨3, 3, [7, 9, 11]⟩).minEventTimes[0]? =
      (⟨3, 3, [7, 9, 11]⟩ : WorkerPool).minEventTimes[0]? :=
  ⟨((worker_setMinEventTimeNextRound_spec 5 1 8 ⟨3, 3, [7, 9, 11]⟩).2
      (by decide) 9 (by decide)).1,
   ((worker_setMinEventTimeNextRound_spec 5 1 8 ⟨3, 3, [7, 9, 11]⟩).2
      (by decide) 9 (by decide)).2 0 (by decide)⟩

/-- Claim C6: worker_scheduleTask returns false and pushes nothing when the
manager reports the scheduler no longer running; otherwise (current time
valid, sum not wrapping) it pushes an event at currentTime + nanoDelay with
the given host as both source and destination and returns exactly the
scheduler accept or reject boolean. -/
theorem worker_scheduleTask_spec (env : ScheduleTaskEnv) (nanoDelay : Nat) :
    (env.schedulerIsRunning = false →
      worker_scheduleTask env nanoDelay = .returned false none) ∧
    (env.schedulerIsRunning = true → env.currentTime ≠ SIMTIME_INVALID →
      env.currentTime + nanoDelay < UINT64_MOD →
      worker_scheduleTask env nanoDelay =
        .returned env.schedulerAccepts
          (some (env.currentTime + nanoDelay, env.host, env.host))) := by
  constructor
  · intro h
    simp [worker_scheduleTask, h]
  · intro h hinv hov
    simp [worker_scheduleTask, h, hinv, Nat.mod_eq_of_lt hov]

theorem worker_scheduleTask_spec_witness :
    worker_scheduleTask ⟨false, 100, 7, true⟩ 50 = .returned false none ∧
    worker_scheduleTask ⟨true, 100, 7, true⟩ 50 =
      .returned true (some (150, 7, 7)) :=
  ⟨(worker_scheduleTask_spec ⟨false, 100, 7, true⟩ 50).1 rfl,
   (worker_scheduleTask_spec ⟨true, 100, 7, true⟩ 50).2 rfl
     (by decide) (by decide)⟩

/-- Claim C9: when the scheduler-running check passes but the thread-local
current time is the SIMTIME_INVALID sentinel (the call is made outside
event execution), worker_scheduleTask aborts on the utility_assert instead
of returning false or any other boolean. -/
theorem worker_scheduleTask_invalid_time_panics (env : ScheduleTaskEnv)
    (nanoDelay : Nat) (hrun : env.schedulerIsRunning = true)
    (hinv : env.currentTime = SIMTIME_INVALID) :
    worker_scheduleTask env nanoDelay = .panicInvalidTime ∧
    ∀ b pushed, worker_scheduleTask env nanoDelay ≠ .returned b pushed := by
  have h : worker_scheduleTask env nanoDelay = .panicInvalidTime := by
    simp [worker_scheduleTask, hrun, hinv]
  refine ⟨h, ?_⟩
  intro b pushed hcontra
  rw [h] at hcontra
  exact ScheduleTaskOutcome.noConfusion hcontra

theorem worker_scheduleTask_invalid_time_panics_witness :
    worker_scheduleTask ⟨true, SIMTIME_INVALID, 7, true⟩ 5 =
      .panicInvalidTime ∧
    worker_scheduleTask ⟨true, SIMTIME_INVALID, 7, true⟩ 5 ≠
      .returned false none :=
  ⟨(worker_scheduleTask_invalid_time_panics ⟨true, SIMTIME_INVALID, 7, true⟩ 5
      rfl rfl).1,
   (worker_scheduleTask_invalid_time_panics ⟨true, SIMTIME_INVALID, 7, true⟩ 5
      rfl rfl).2 false none⟩

/-- Claim C8: calling the public workerpool_startTaskFn with a non-null
task function on a pool with at least one worker whose task-function slot
is already occupied aborts on the utility_assert, and the in-flight task
function and data slots are left exactly as they were. -/
theorem workerpool_startTaskFn_in_flight_panics (s : PoolDispatchState)
    (f : Nat) (d : Nat) (hn : 1 ≤ s.nWorkers) (hflight : s.taskFn ≠ none) :
    workerpool_startTaskFn s (some f) d = .panicTaskInFlight s := by
  have hz : ¬ s.nWorkers = 0 := by omega
  simp [workerpool_startTaskFn, _workerpool_startTaskFn, hz, hflight]

theorem workerpool_startTaskFn_in_flight_panics_witness :
    workerpool_startTaskFn ⟨2, some 5, 9⟩ (some 7) 3 =
      .panicTaskInFlight ⟨2, some 5, 9⟩ :=
  workerpool_startTaskFn_in_flight_panics ⟨2, some 5, 9⟩ 7 3
    (by decide) (by decide)

theorem sendDelay_one : sendDelay 1 = 1000000 := by
  have h : (⌈(1 : ℚ) * ((1000000 : Nat) : ℚ)⌉).toNat = 1000000 := by
    norm_num
    rfl
  exact h

theorem worker_sendPacket_eventPushed_time (env : SendPacketEnv)
    (eff : SendEffects) (t : Nat)
    (hok : worker_sendPacket env = .ok eff)
    (hpush : eff.eventPushed = some t) :
    t = (env.currentTime + sendDelay env.latency) % UINT64_MOD := by
  unfold worker_sendPacket at hok
  split_ifs at hok
  all_goals first
    | exact SendOutcome.noConfusion hok
    | (injection hok with h; subst h; simp_all)

/-- Claim C7: a worker_sendPacket call made while the scheduler is no
longer running is a silent no-op: it returns without reaching address
resolution, pushes no event, and adds no delivery status to the packet. -/
theorem worker_sendPacket_shutdown_noop (env : SendPacketEnv)
    (h : env.schedulerIsRunning = false) :
    worker_sendPacket env =
      .ok { resolvedAddresses := false, deliveryStatus := none,
            eventPushed := none, pathCounterIncremented := false,
            packetCopied := false } := by
  simp [worker_sendPacket, h]

theorem worker_sendPacket_shutdown_noop_witness :
    worker_sendPacket ⟨false, some 1, some 2, false, 1, 0, 5, 1, 100, true, true⟩ =
      .ok { resolvedAddresses := false, deliveryStatus := none,
            eventPushed := none, pathCounterIncremented := false,
            packetCopied := false } :=
  worker_sendPacket_shutdown_noop
    ⟨false, some 1, some 2, false, 1, 0, 5, 1, 100, true, true⟩ rfl

/-- Claim C3: with the scheduler running, both addresses resolved and the
destination host known, worker_sendPacket delivers (copies the packet,
pushes an event at currentTime + sendDelay latency and marks the packet
SENT) exactly when the network is bootstrapping, or the reliability draw is
at most the topology reliability, or the payload length is zero; otherwise
it marks the packet DROPPED and pushes no event. In particular reliability 1
(with a draw of at most 1) always delivers, and a zero payload length
delivers regardless of the reliability. -/
theorem worker_sendPacket_delivery_spec (env : SendPacketEnv)
    (hrun : env.schedulerIsRunning = true)
    (hsrc : env.srcAddress ≠ none) (hdst : env.dstAddress ≠ none)
    (hhost : env.dstHostExists = true)
    (hov : env.currentTime + sendDelay env.latency < UINT64_MOD) :
    (worker_sendPacket env =
        .ok { resolvedAddresses := true, deliveryStatus := some .SENT,
              eventPushed := some (env.currentTime + sendDelay env.latency),
              pathCounterIncremented := true, packetCopied := true } ↔
      (env.bootstrapping = true ∨ env.chance ≤ env.reliability ∨
        env.payloadLength = 0)) ∧
    (¬ (env.bootstrapping = true ∨ env.chance ≤ env.reliability ∨
        env.payloadLength = 0) →
      worker_sendPacket env =
        .ok { resolvedAddresses := true, deliveryStatus := some .DROPPED,
              eventPushed := none, pathCounterIncremented := false,
              packetCopied := false }) ∧
    (env.reliability = 1 → env.chance ≤ 1 →
      worker_sendPacket env =
        .ok { resolvedAddresses := true, deliveryStatus := some .SENT,
              eventPushed := some (env.currentTime + sendDelay env.latency),
              pathCounterIncremented := true, packetCopied := true }) ∧
    (env.payloadLength = 0 →
      worker_sendPacket env =
        .ok { resolvedAddresses := true, deliveryStatus := some .SENT,
              eventPushed := some (env.currentTime + sendDelay env.latency),
              pathCounterIncremented := true, packetCopied := true }) := by
  have hmod : (env.currentTime + sendDelay env.latency) % UINT64_MOD =
      env.currentTime + sendDelay env.latency := Nat.mod_eq_of_lt hov
  by_cases hcond : env.bootstrapping = true ∨ env.chance ≤ env.reliability ∨
      env.payloadLength = 0
  · refine ⟨?_, ?_, ?_, ?_⟩
    · simp [worker_sendPacket, hrun, hsrc, hdst, hhost, hcond, hmod]
    · intro h; exact absurd hcond h
    · intro _ _
      simp [worker_sendPacket, hrun, hsrc, hdst, hhost, hcond, hmod]
    · intro _
      simp [worker_sendPacket, hrun, hsrc, hdst, hhost, hcond, hmod]
  · refine ⟨?_, ?_, ?_, ?_⟩
    · simp [worker_sendPacket, hrun, hsrc, hdst, hcond]
    · intro _
      simp [worker_sendPacket, hrun, hsrc, hdst, hcond]
    · intro h1 h2
      exact absurd (Or.inr (Or.inl (h1 ▸ h2))) hcond
    · intro h0
      exact absurd (Or.inr (Or.inr h0)) hcond

theorem worker_sendPacket_delivery_spec_witness :
    (worker_sendPacket ⟨true, some 1, some 2, false, 1, 0, 5, 1, 100, true, true⟩ =
      .ok { resolvedAddresses := true, deliveryStatus := some .SENT,
            eventPushed := some (100 + sendDelay 1),
            pathCounterIncremented := true, packetCopied := true }) ∧
    (worker_sendPacket ⟨true, some 1, some 2, false, 0, 1, 0, 1, 100, true, true⟩ =
      .ok { resolvedAddresses := true, deliveryStatus := some .SENT,
            eventPushed := some (100 + sendDelay 1),
            pathCounterIncremented := true, packetCopied := true }) :=
  ⟨(worker_sendPacket_delivery_spec
      ⟨true, some 1, some 2, false, 1, 0, 5, 1, 100, true, true⟩ rfl
      (by simp) (by simp) rfl (by rw [sendDelay_one]; decide)).2.2.1 rfl
      zero_le_one,
   (worker_sendPacket_delivery_spec
      ⟨true, some 1, some 2, false, 0, 1, 0, 1, 100, true, true⟩ rfl
      (by simp) (by simp) rfl (by rw [sendDelay_one]; decide)).2.2.2 rfl⟩

/-- Claim C4 counterexample: in env4 the topology reliability is 0, the
payload length is 100 and bootstrapping is inactive, yet the reliability
draw 0 satisfies the chance at most reliability test, so worker_sendPacket
pushes a delivery event and marks the packet SENT, not DROPPED. The claim
is therefore false for the draw value 0. -/
theorem worker_sendPacket_rel0_chance0_delivers :
    worker_sendPacket env4 =
      .ok { resolvedAddresses := true, deliveryStatus := some .SENT,
            eventPushed := some ((1000 + sendDelay 1) % UINT64_MOD),
            pathCounterIncremented := true, packetCopied := true } := by
  simp [worker_sendPacket, env4]

/-- Claim C4 amended: with topology reliability 0, positive payload length,
bootstrapping inactive, scheduler running, both addresses resolved and a
reliability draw strictly greater than zero, worker_sendPacket pushes no
event and marks the packet DROPPED. -/
theorem worker_sendPacket_rel0_dropped (env : SendPacketEnv)
    (hrun : env.schedulerIsRunning = true)
    (hsrc : env.srcAddress ≠ none) (hdst : env.dstAddress ≠ none)
    (hrel : env.reliability = 0) (hchance : 0 < env.chance)
    (hboot : env.bootstrapping = false) (hpay : env.payloadLength ≠ 0) :
    worker_sendPacket env =
      .ok { resolvedAddresses := true, deliveryStatus := some .DROPPED,
            eventPushed := none, pathCounterIncremented := false,
            packetCopied := false } := by
  have hnle : ¬ env.chance ≤ env.reliability := by
    rw [hrel]
    exact not_le.mpr hchance
  simp [worker_sendPacket, hrun, hsrc, hdst, hboot, hpay, hnle]

theorem worker_sendPacket_rel0_dropped_witness :
    worker_sendPacket ⟨true, some 1, some 2, false, 0, 1, 100, 1, 1000, true, true⟩ =
      .ok { resolvedAddresses := true, deliveryStatus := some .DROPPED,
            eventPushed := none, pathCounterIncremented := false,
            packetCopied := false } :=
  worker_sendPacket_rel0_dropped
    ⟨true, some 1, some 2, false, 0, 1, 100, 1, 1000, true, true⟩
    rfl (by simp) (by simp) rfl zero_lt_one rfl (by decide)

/-- Claim C5: for every positive latency (milliseconds) the delay computed
by worker_sendPacket, the ceiling of latency times SIMTIME_ONE_MILLISECOND,
is at least one nanosecond, so any delivery event it pushes carries a time
strictly greater than the current time. -/
theorem worker_sendPacket_delay_ge_one (env : SendPacketEnv)
    (hlat : 0 < env.latency)
    (hov : env.currentTime + sendDelay env.latency < UINT64_MOD) :
    1 ≤ sendDelay env.latency ∧
    ∀ eff t, worker_sendPacket env = .ok eff → eff.eventPushed = some t →
      env.currentTime < t := by
  have hprod : (0 : ℚ) < env.latency * (SIMTIME_ONE_MILLISECOND : ℚ) := by
    apply mul_pos hlat
    norm_num [SIMTIME_ONE_MILLISECOND]
  have hceil : (0 : ℤ) < ⌈env.latency * (SIMTIME_ONE_MILLISECOND : ℚ)⌉ :=
    Int.ceil_pos.mpr hprod
  have h1 : 1 ≤ sendDelay env.latency := by
    unfold sendDelay
    omega
  refine ⟨h1, fun eff t hok hpush => ?_⟩
  have ht := worker_sendPacket_eventPushed_time env eff t hok hpush
  rw [Nat.mod_eq_of_lt hov] at ht
  omega

theorem worker_sendPacket_delay_ge_one_witness :
    1 ≤ sendDelay 1 ∧
    (100 : Nat) < (100 + sendDelay 1) % UINT64_MOD :=
  have happ := worker_sendPacket_delay_ge_one
    ⟨true, some 1, some 2, false, 1, 0, 5, 1, 100, true, true⟩
    zero_lt_one (by rw [sendDelay_one]; decide)
  ⟨happ.1,
   happ.2 { resolvedAddresses := true, deliveryStatus := some .SENT,
            eventPushed := some ((100 + sendDelay 1) % UINT64_MOD),
            pathCounterIncremented := true, packetCopied := true }
     ((100 + sendDelay 1) % UINT64_MOD)
     (by simp [worker_sendPacket]) rfl⟩

/-- Claim C10: in the delivered branch of worker_sendPacket the path packet
counter is incremented and the packet is marked SENT while the boolean
answer of scheduler_push is discarded: even when the scheduler rejects the
event (schedulerAccepts false) the result still records SENT, the counter
increment and the pushed event, and the result does not depend on the
scheduler answer at all. -/
theorem worker_sendPacket_sent_despite_reject (env : SendPacketEnv)
    (hrun : env.schedulerIsRunning = true)
    (hsrc : env.srcAddress ≠ none) (hdst : env.dstAddress ≠ none)
    (hhost : env.dstHostExists = true)
    (hcond : env.bootstrapping = true ∨ env.chance ≤ env.reliability ∨
      env.payloadLength = 0)
    (hrej : env.schedulerAccepts = false) :
    worker_sendPacket env =
      .ok { resolvedAddresses := true, deliveryStatus := some .SENT,
            eventPushed :=
              some ((env.currentTime + sendDelay env.latency) % UINT64_MOD),
            pathCounterIncremented := true, packetCopied := true } ∧
    ∀ b, worker_sendPacket { env with schedulerAccepts := b } =
      worker_sendPacket env := by
  constructor
  · simp [worker_sendPacket, hrun, hsrc, hdst, hhost, hcond]
  · intro b
    simp [worker_sendPacket]

theorem worker_sendPacket_sent_despite_reject_witness :
    (worker_sendPacket ⟨true, some 1, some 2, false, 1, 0, 5, 1, 100, true, false⟩ =
      .ok { resolvedAddresses := true, deliveryStatus := some .SENT,
            eventPushed := some ((100 + sendDelay 1) % UINT64_MOD),
            pathCounterIncremented := true, packetCopied := true }) ∧
    worker_sendPacket ⟨true, some 1, some 2, false, 1, 0, 5, 1, 100, true, true⟩ =
      worker_sendPacket ⟨true, some 1, some 2, false, 1, 0, 5, 1, 100, true, false⟩ :=
  have happ := worker_sendPacket_sent_despite_reject
    ⟨true, some 1, some 2, false, 1, 0, 5, 1, 100, true, false⟩
    rfl (by simp) (by simp) rfl (Or.inr (Or.inl zero_le_one)) rfl
  ⟨happ.1, happ.2 true⟩
